import Mathlib

/-
Verification of arkouda/array_api/_io.py.

The file under study is a thin adapter with two functions, read_hdf5 and
lshdf, that forward work to three external collaborators: the messaging
client generic_msg, the pdarray constructor create_pdarray, and the array
wrapper Array._new.  We embed the two functions shallowly: the
collaborators become an explicit environment of fallible oracles
(Except-valued functions), and each Python function becomes a Lean
function that returns its result together with a trace of the observable
events it performed, in order (messaging calls, console prints,
constructor calls).  Python exceptions raised by a collaborator become
the error branch of Except and short-circuit the rest of the body, just
as an uncaught exception would in the source.
-/

namespace ArkoudaIO

/-- Observable events of a run: a call to the messaging client with a
command string and an ordered argument mapping, a line printed to the
console, a call to create_pdarray with a raw reply, and a call to the
wrapper on a pdarray value. -/
inductive Ev (Pd : Type) where
  | msgCall (cmd : String) (args : List (String × String))
  | printed (s : String)
  | createCall (reply : String)
  | newCall (p : Pd)
deriving DecidableEq

/-- The external collaborators of the fragment: the messaging client, the
pdarray constructor and the array wrapper.  Each may fail, modelling a
Python exception raised inside it. -/
structure Env (Pd Arr ε : Type) where
  generic_msg : String → List (String × String) → Except ε String
  create_pdarray : String → Except ε Pd
  array_new : Pd → Except ε Arr

/-- The command string built by read_hdf5: the f-string
readSingleHdfArray{rank}D of the source, with the decimal representation
of the integer rank interpolated. -/
def readCmd (rank : Int) : String :=
  "readSingleHdfArray" ++ toString rank ++ "D"

/-- The argument mapping built by read_hdf5, in source order: dset first,
then filename. -/
def readArgs (dataset filename : String) : List (String × String) :=
  [("dset", dataset), ("filename", filename)]

/-- Embedding of read_hdf5: call generic_msg with the interpolated
command and the argument mapping; on success print the raw reply, then
build the result as Array._new applied to create_pdarray of the reply.
Any collaborator failure aborts the rest of the body. -/
def read_hdf5 {Pd Arr ε : Type} (env : Env Pd Arr ε)
    (filename dataset : String) (rank : Int) :
    Except ε Arr × List (Ev Pd) :=
  let cmd := readCmd rank
  let args := readArgs dataset filename
  match env.generic_msg cmd args with
  | .error e => (.error e, [.msgCall cmd args])
  | .ok repMsg =>
    match env.create_pdarray repMsg with
    | .error e =>
      (.error e, [.msgCall cmd args, .printed repMsg, .createCall repMsg])
    | .ok p =>
      match env.array_new p with
      | .error e =>
        (.error e,
         [.msgCall cmd args, .printed repMsg, .createCall repMsg, .newCall p])
      | .ok a =>
        (.ok a,
         [.msgCall cmd args, .printed repMsg, .createCall repMsg, .newCall p])

/-- Embedding of lshdf: call generic_msg with the fixed command lshdf and
the singleton argument mapping, and return the reply unmodified. -/
def lshdf {Pd Arr ε : Type} (env : Env Pd Arr ε) (filename : String) :
    Except ε String × List (Ev Pd) :=
  let args : List (String × String) := [("filename", filename)]
  match env.generic_msg "lshdf" args with
  | .error e => (.error e, [.msgCall "lshdf" args])
  | .ok repMsg => (.ok repMsg, [.msgCall "lshdf" args])

/-- The messaging-client calls recorded in a trace, in order. -/
def msgCallsOf {Pd : Type} (t : List (Ev Pd)) :
    List (String × List (String × String)) :=
  t.filterMap fun e =>
    match e with
    | .msgCall c a => some (c, a)
    | _ => none

/-- The console prints recorded in a trace, in order. -/
def printsOf {Pd : Type} (t : List (Ev Pd)) : List String :=
  t.filterMap fun e =>
    match e with
    | .printed s => some s
    | _ => none

/-- The create_pdarray calls recorded in a trace, in order. -/
def createCallsOf {Pd : Type} (t : List (Ev Pd)) : List String :=
  t.filterMap fun e =>
    match e with
    | .createCall r => some r
    | _ => none

/-- The Array._new calls recorded in a trace, in order. -/
def newCallsOf {Pd : Type} (t : List (Ev Pd)) : List Pd :=
  t.filterMap fun e =>
    match e with
    | .newCall p => some p
    | _ => none

/-- Helper: the command strings of the messaging calls of a read_hdf5
run form the singleton of the interpolated command, whatever the
environment returns. -/
theorem read_hdf5_msgCmds {Pd Arr ε : Type} (env : Env Pd Arr ε)
    (filename dataset : String) (rank : Int) :
    (msgCallsOf (read_hdf5 env filename dataset rank).2).map Prod.fst
      = [readCmd rank] := by
  cases hm : env.generic_msg (readCmd rank) (readArgs dataset filename) with
  | error e => simp [read_hdf5, msgCallsOf, hm]
  | ok repMsg =>
    cases hc : env.create_pdarray repMsg with
    | error e => simp [read_hdf5, msgCallsOf, hm, hc]
    | ok p =>
      cases hn : env.array_new p with
      | error e => simp [read_hdf5, msgCallsOf, hm, hc, hn]
      | ok a => simp [read_hdf5, msgCallsOf, hm, hc, hn]

/-- A concrete environment used to instantiate theorems: every command
succeeds with the reply replyA, create_pdarray yields the pdarray 7, and
the wrapper adds one. -/
def envA : Env Int Int Unit where
  generic_msg := fun _ _ => .ok "replyA"
  create_pdarray := fun _ => .ok 7
  array_new := fun p => .ok (p + 1)

/-- C1: for every environment, filename, dataset and rank, when the
messaging client returns the reply r, read_hdf5 makes exactly one
messaging call, makes exactly one create_pdarray call and it receives the
raw reply r, and its returned value is exactly the handle construction
Array._new of create_pdarray applied to r, with no further
transformation. -/
theorem read_hdf5_one_msg_one_ctor {Pd Arr ε : Type} (env : Env Pd Arr ε)
    (filename dataset : String) (rank : Int) (r : String)
    (h : env.generic_msg (readCmd rank) (readArgs dataset filename) = .ok r) :
    msgCallsOf (read_hdf5 env filename dataset rank).2
        = [(readCmd rank, readArgs dataset filename)]
    ∧ createCallsOf (read_hdf5 env filename dataset rank).2 = [r]
    ∧ (read_hdf5 env filename dataset rank).1
        = (env.create_pdarray r).bind env.array_new := by
  cases hc : env.create_pdarray r with
  | error e =>
    simp [read_hdf5, msgCallsOf, createCallsOf, Except.bind, h, hc]
  | ok p =>
    cases hn : env.array_new p with
    | error e =>
      simp [read_hdf5, msgCallsOf, createCallsOf, Except.bind, h, hc, hn]
    | ok a =>
      simp [read_hdf5, msgCallsOf, createCallsOf, Except.bind, h, hc, hn]

/-- Witness for C1 at a concrete input. -/
theorem read_hdf5_one_msg_one_ctor_witness :
    msgCallsOf (read_hdf5 envA "data.h5" "temps" 2).2
        = [(readCmd 2, readArgs "temps" "data.h5")]
    ∧ createCallsOf (read_hdf5 envA "data.h5" "temps" 2).2 = ["replyA"]
    ∧ (read_hdf5 envA "data.h5" "temps" 2).1
        = (envA.create_pdarray "replyA").bind envA.array_new :=
  read_hdf5_one_msg_one_ctor envA "data.h5" "temps" 2 "replyA" rfl

/-- C2: for every rank at least one, the command string read_hdf5 submits
is the concatenation of readSingleHdfArray, the decimal representation of
rank, and D. -/
theorem read_hdf5_cmd_format {Pd Arr ε : Type} (env : Env Pd Arr ε)
    (filename dataset : String) (rank : Int) (_h : 1 ≤ rank) :
    (msgCallsOf (read_hdf5 env filename dataset rank).2).map Prod.fst
      = ["readSingleHdfArray" ++ toString rank ++ "D"] := by
  have hr : "readSingleHdfArray" ++ toString rank ++ "D" = readCmd rank := rfl
  rw [hr]
  cases hm : env.generic_msg (readCmd rank) (readArgs dataset filename) with
  | error e => simp [read_hdf5, msgCallsOf, hm]
  | ok repMsg =>
    cases hc : env.create_pdarray repMsg with
    | error e => simp [read_hdf5, msgCallsOf, hm, hc]
    | ok p =>
      cases hn : env.array_new p with
      | error e => simp [read_hdf5, msgCallsOf, hm, hc, hn]
      | ok a => simp [read_hdf5, msgCallsOf, hm, hc, hn]

/-- Witness for C2 at rank 2. -/
theorem read_hdf5_cmd_format_witness :
    (msgCallsOf (read_hdf5 envA "data.h5" "temps" 2).2).map Prod.fst
      = ["readSingleHdfArray" ++ toString (2 : Int) ++ "D"] :=
  read_hdf5_cmd_format envA "data.h5" "temps" 2 (by decide)

/-- C3: for every environment, filename, dataset and rank, the argument
mapping read_hdf5 submits is exactly dset mapped to dataset and filename
mapped to filename, both unmodified, with no other keys. -/
theorem read_hdf5_args_exact {Pd Arr ε : Type} (env : Env Pd Arr ε)
    (filename dataset : String) (rank : Int) :
    (msgCallsOf (read_hdf5 env filename dataset rank).2).map Prod.snd
      = [[("dset", dataset), ("filename", filename)]] := by
  have hr : [("dset", dataset), ("filename", filename)]
      = readArgs dataset filename := rfl
  rw [hr]
  cases hm : env.generic_msg (readCmd rank) (readArgs dataset filename) with
  | error e => simp [read_hdf5, msgCallsOf, hm]
  | ok repMsg =>
    cases hc : env.create_pdarray repMsg with
    | error e => simp [read_hdf5, msgCallsOf, hm, hc]
    | ok p =>
      cases hn : env.array_new p with
      | error e => simp [read_hdf5, msgCallsOf, hm, hc, hn]
      | ok a => simp [read_hdf5, msgCallsOf, hm, hc, hn]

/-- C4: for every environment and filename, lshdf submits exactly the
command lshdf with the singleton argument mapping filename, and returns
the messaging-client reply unmodified, errors included. -/
theorem lshdf_passthrough {Pd Arr ε : Type} (env : Env Pd Arr ε)
    (filename : String) :
    msgCallsOf (lshdf env filename).2 = [("lshdf", [("filename", filename)])]
    ∧ (lshdf env filename).1
        = env.generic_msg "lshdf" [("filename", filename)] := by
  cases hm : env.generic_msg "lshdf" [("filename", filename)] with
  | error e => simp [lshdf, msgCallsOf, hm]
  | ok repMsg => simp [lshdf, msgCallsOf, hm]

/-- C5: read_hdf5 and lshdf return an error exactly when a collaborator
returned one, and it is the very same error value, unaltered: read_hdf5
fails with e iff the messaging client failed with e, or succeeded with a
reply on which create_pdarray failed with e, or both succeeded and the
wrapper failed with e; lshdf fails with e iff the messaging client
failed with e. -/
theorem errors_propagate {Pd Arr ε : Type} (env : Env Pd Arr ε)
    (filename dataset : String) (rank : Int) (e : ε) :
    ((read_hdf5 env filename dataset rank).1 = .error e ↔
      env.generic_msg (readCmd rank) (readArgs dataset filename) = .error e
      ∨ ∃ r, env.generic_msg (readCmd rank) (readArgs dataset filename)
              = .ok r
          ∧ (env.create_pdarray r = .error e
             ∨ ∃ p, env.create_pdarray r = .ok p
                 ∧ env.array_new p = .error e))
    ∧ ((lshdf env filename).1 = .error e
        ↔ env.generic_msg "lshdf" [("filename", filename)] = .error e) := by
  constructor
  · cases hm : env.generic_msg (readCmd rank) (readArgs dataset filename) with
    | error e0 => simp [read_hdf5, hm]
    | ok repMsg =>
      cases hc : env.create_pdarray repMsg with
      | error e0 => simp [read_hdf5, hm, hc]
      | ok p =>
        cases hn : env.array_new p with
        | error e0 => simp [read_hdf5, hm, hc, hn]
        | ok a => simp [read_hdf5, hm, hc, hn]
  · cases hm : env.generic_msg "lshdf" [("filename", filename)] with
    | error e0 => simp [lshdf, hm]
    | ok repMsg => simp [lshdf, hm]

/-- C6: whenever the messaging client returns a reply r, read_hdf5 prints
exactly r, and it does so right after the messaging call and before the
constructor calls; the printing leaves the returned value exactly the
handle construction applied to r. -/
theorem read_hdf5_prints_reply {Pd Arr ε : Type} (env : Env Pd Arr ε)
    (filename dataset : String) (rank : Int) (r : String)
    (h : env.generic_msg (readCmd rank) (readArgs dataset filename) = .ok r) :
    printsOf (read_hdf5 env filename dataset rank).2 = [r]
    ∧ (read_hdf5 env filename dataset rank).2.take 2
        = [.msgCall (readCmd rank) (readArgs dataset filename), .printed r]
    ∧ (read_hdf5 env filename dataset rank).1
        = (env.create_pdarray r).bind env.array_new := by
  cases hc : env.create_pdarray r with
  | error e => simp [read_hdf5, printsOf, Except.bind, h, hc]
  | ok p =>
    cases hn : env.array_new p with
    | error e => simp [read_hdf5, printsOf, Except.bind, h, hc, hn]
    | ok a => simp [read_hdf5, printsOf, Except.bind, h, hc, hn]

/-- Witness for C6 at a concrete input. -/
theorem read_hdf5_prints_reply_witness :
    printsOf (read_hdf5 envA "data.h5" "temps" 2).2 = ["replyA"]
    ∧ (read_hdf5 envA "data.h5" "temps" 2).2.take 2
        = [.msgCall (readCmd 2) (readArgs "temps" "data.h5"),
           .printed "replyA"]
    ∧ (read_hdf5 envA "data.h5" "temps" 2).1
        = (envA.create_pdarray "replyA").bind envA.array_new :=
  read_hdf5_prints_reply envA "data.h5" "temps" 2 "replyA" rfl

/-- C7: for every integer rank, zero and negative values included, there
is no range validation: read_hdf5 still makes exactly one messaging call
whose command is the decimal interpolation of rank into the fixed
template and whose argument mapping does not depend on rank; in
particular rank zero yields readSingleHdfArray0D. -/
theorem read_hdf5_no_rank_validation {Pd Arr ε : Type} (env : Env Pd Arr ε)
    (filename dataset : String) (rank : Int) :
    msgCallsOf (read_hdf5 env filename dataset rank).2
      = [("readSingleHdfArray" ++ toString rank ++ "D",
          readArgs dataset filename)]
    ∧ readCmd 0 = "readSingleHdfArray0D"
    ∧ readCmd (-1) = "readSingleHdfArray-1D" := by
  refine ⟨?_, by decide, by decide⟩
  have hr : "readSingleHdfArray" ++ toString rank ++ "D" = readCmd rank := rfl
  rw [hr]
  cases hm : env.generic_msg (readCmd rank) (readArgs dataset filename) with
  | error e => simp [read_hdf5, msgCallsOf, hm]
  | ok repMsg =>
    cases hc : env.create_pdarray repMsg with
    | error e => simp [read_hdf5, msgCallsOf, hm, hc]
    | ok p =>
      cases hn : env.array_new p with
      | error e => simp [read_hdf5, msgCallsOf, hm, hc, hn]
      | ok a => simp [read_hdf5, msgCallsOf, hm, hc, hn]

/-- C9: lshdf prints nothing: its trace contains no console output. -/
theorem lshdf_no_print {Pd Arr ε : Type} (env : Env Pd Arr ε)
    (filename : String) :
    printsOf (lshdf env filename).2 = [] := by
  cases hm : env.generic_msg "lshdf" [("filename", filename)] with
  | error e => simp [lshdf, printsOf, hm]
  | ok repMsg => simp [lshdf, printsOf, hm]

/-- Modelled from the spec: the backend server, create_pdarray and
Array._new are collaborators outside the studied file; only their
call sites are visible.  Following the spec, a successful reply to the
rank-selected read command attests an array of dimensionality rank,
create_pdarray builds a pdarray of the attested dimensionality, and the
wrapper preserves dimensionality.  replyRank is the dimensionality a
reply attests; pdRank and arrRank give the dimensionality of a pdarray
and of a wrapped array. -/
structure RankAttesting {Pd Arr ε : Type} (env : Env Pd Arr ε) (rank : Int)
    (replyRank : String → Int) (pdRank : Pd → Int) (arrRank : Arr → Int) :
    Prop where
  backend : ∀ args r, env.generic_msg (readCmd rank) args = .ok r →
      replyRank r = rank
  create : ∀ r p, env.create_pdarray r = .ok p → pdRank p = replyRank r
  wrap : ∀ p a, env.array_new p = .ok a → arrRank a = pdRank p

/-- C8: when the collaborators attest and preserve dimensionality as the
spec describes, every call to read_hdf5 that returns without a
collaborator signaling failure yields a handle whose dimensionality
equals the rank argument. -/
theorem read_hdf5_rank_matches {Pd Arr ε : Type} (env : Env Pd Arr ε)
    (rank : Int) (replyRank : String → Int) (pdRank : Pd → Int)
    (arrRank : Arr → Int)
    (hAtt : RankAttesting env rank replyRank pdRank arrRank)
    (filename dataset : String) (a : Arr)
    (h : (read_hdf5 env filename dataset rank).1 = .ok a) :
    arrRank a = rank := by
  cases hm : env.generic_msg (readCmd rank) (readArgs dataset filename) with
  | error e => simp [read_hdf5, hm] at h
  | ok repMsg =>
    cases hc : env.create_pdarray repMsg with
    | error e => simp [read_hdf5, hm, hc] at h
    | ok p =>
      cases hn : env.array_new p with
      | error e => simp [read_hdf5, hm, hc, hn] at h
      | ok a0 =>
        simp [read_hdf5, hm, hc, hn] at h
        subst h
        rw [hAtt.wrap p a0 hn, hAtt.create repMsg p hc,
          hAtt.backend (readArgs dataset filename) repMsg hm]

/-- A concrete environment in which the backend answers every command
with a reply attesting dimensionality two and the constructors carry the
dimensionality through unchanged. -/
def envW : Env Int Int Unit where
  generic_msg := fun _ _ => .ok "R2"
  create_pdarray := fun _ => .ok 2
  array_new := fun p => .ok p

/-- Witness for C8 at a concrete input. -/
theorem read_hdf5_rank_matches_witness : id (2 : Int) = 2 :=
  read_hdf5_rank_matches envW 2 (fun _ => 2) id id
    ⟨fun _ _ _ => rfl,
     fun _ _ h => (Except.ok.inj h).symm,
     fun _ _ h => (Except.ok.inj h).symm⟩
    "data.h5" "temps" 2 rfl

/-- A concrete environment that differs from envA only on a command
neither function submits. -/
def envB : Env Int Int Unit where
  generic_msg := fun c _ => if c = "unrelatedCmd" then .error () else .ok "replyA"
  create_pdarray := fun _ => .ok 7
  array_new := fun p => .ok (p + 1)

/-- C10: the submitted command depends only on rank: two calls with the
same rank and any environments, filenames and datasets submit the same
command strings; and given equal collaborator replies at the points the
functions consult, read_hdf5 and lshdf return equal results and traces. -/
theorem read_hdf5_lshdf_deterministic {Pd Arr ε : Type} :
    (∀ (env₁ env₂ : Env Pd Arr ε) (f₁ d₁ f₂ d₂ : String) (rank : Int),
      (msgCallsOf (read_hdf5 env₁ f₁ d₁ rank).2).map Prod.fst
        = (msgCallsOf (read_hdf5 env₂ f₂ d₂ rank).2).map Prod.fst)
    ∧ (∀ (env₁ env₂ : Env Pd Arr ε) (f d : String) (rank : Int),
        env₁.generic_msg (readCmd rank) (readArgs d f)
            = env₂.generic_msg (readCmd rank) (readArgs d f) →
        env₁.create_pdarray = env₂.create_pdarray →
        env₁.array_new = env₂.array_new →
        read_hdf5 env₁ f d rank = read_hdf5 env₂ f d rank)
    ∧ (∀ (env₁ env₂ : Env Pd Arr ε) (f : String),
        env₁.generic_msg "lshdf" [("filename", f)]
            = env₂.generic_msg "lshdf" [("filename", f)] →
        lshdf env₁ f = lshdf env₂ f) := by
  refine ⟨?_, ?_, ?_⟩
  · intro env₁ env₂ f₁ d₁ f₂ d₂ rank
    have h₁ := read_hdf5_msgCmds env₁ f₁ d₁ rank
    have h₂ := read_hdf5_msgCmds env₂ f₂ d₂ rank
    rw [h₁, h₂]
  · intro env₁ env₂ f d rank hg hc hn
    simp only [read_hdf5]
    rw [hg, hc, hn]
  · intro env₁ env₂ f hg
    simp only [lshdf]
    rw [hg]

/-- Witness for C10: two environments agreeing at the consulted points
but differing elsewhere produce identical runs. -/
theorem read_hdf5_lshdf_deterministic_witness :
    read_hdf5 envA "data.h5" "temps" 2 = read_hdf5 envB "data.h5" "temps" 2 :=
  read_hdf5_lshdf_deterministic.2.1 envA envB "data.h5" "temps" 2
    (by
      have hne : readCmd 2 ≠ "unrelatedCmd" := by decide
      simp [envA, envB, hne]) rfl rfl

end ArkoudaIO
